import Mathlib

/-!
Verification of the certificate signing / verification subsystem of the
agri-backend repository (node-server/helpers/signage.js and the /certify
route, validation and key-bootstrap blocks of the express server file).

The JavaScript code is shallowly embedded:

* JSON values are the inductive `Json` (object fields in insertion order,
  as in a JS object literal).  JSON numbers are modelled as integers; none
  of the verified properties exercise float formatting.
* `JSON.stringify(payload, Object.keys(payload).sort(), 2)` is modelled
  faithfully per ECMA-262: the replacer array filters and orders the
  properties of every (non-array) object in the tree, elements of arrays
  are never filtered, `undefined`-valued properties are skipped, and the
  2-space gap produces the exact indentation and separators of V8.
  `Object.keys(...).sort()` compares strings by UTF-16 code units.
* Node's RSA-SHA256 sign/verify with a fixed key pair is modelled as an
  idealised deterministic signature scheme: for each key-pair id there is
  exactly one valid signature byte string per message, verification
  succeeds iff the (leniently) base64-decoded signature equals it, and it
  never throws on a mismatched or garbage signature, matching
  `crypto.Verify.verify`, which returns `false` in those cases.
* Base64: `sign(privateKey, 'base64')` produces standard padded base64;
  `verify(publicKey, sig, 'base64')` decodes the way `Buffer.from(sig,
  'base64')` does: characters outside the (URL-safe extended) alphabet and
  `=` are ignored, and trailing bits that do not fill a byte are dropped.
* The filesystem is an association list from paths to file contents;
  reads and writes performed by the code are recorded as `FsEvent`s.
-/

namespace AgriCert

/-- JSON values in the wire shape a JS object has at `JSON.stringify` time.
Arrays and objects are encoded as their own cons chains so that every
function below is plain structural recursion, which the kernel evaluates.
`undef` is JavaScript `undefined` (a property that exists but is skipped by
serialization). -/
inductive Json where
  | undef
  | null
  | bool (b : Bool)
  | num (n : Int)
  | str (s : String)
  | arrNil
  | arrCons (head : Json) (tail : Json)
  | objNil
  | objCons (key : String) (val : Json) (tail : Json)
deriving DecidableEq

/-- Build an array value from a list of elements. -/
def arrOf : List Json → Json
  | [] => .arrNil
  | x :: xs => .arrCons x (arrOf xs)

/-- Build an object value from fields in insertion order. -/
def objOf : List (String × Json) → Json
  | [] => .objNil
  | (k, v) :: t => .objCons k v (objOf t)

/-- `Object.keys` of an object chain: own property names in insertion order. -/
def topKeys : Json → List String
  | .objCons k _ t => k :: topKeys t
  | _ => []

/-- Property access on an object chain (JS objects have unique keys;
on a chain with a repeated key the first occurrence wins). -/
def findField (k : String) : Json → Option Json
  | .objCons k' v t => if k' == k then some v else findField k t
  | _ => none

/-! ### The comparator of `Array.prototype.sort()` on strings

JS compares strings by UTF-16 code units.  A Lean `Char` is a Unicode
scalar value; characters above `0xFFFF` contribute a surrogate pair. -/

/-- UTF-16 code units of one character. -/
def utf16Units (c : Char) : List Nat :=
  if c.toNat < 65536 then [c.toNat]
  else [55296 + (c.toNat - 65536) / 1024, 56320 + (c.toNat - 65536) % 1024]

/-- UTF-16 code units of a string. -/
def strUnits (s : String) : List Nat :=
  s.toList.foldr (fun c acc => utf16Units c ++ acc) []

/-- Lexicographic `≤` on code-unit lists. -/
def lexLe : List Nat → List Nat → Bool
  | [], _ => true
  | _ :: _, [] => false
  | x :: xs, y :: ys => if x < y then true else if y < x then false else lexLe xs ys

/-- The default JS string comparison, as a boolean `≤`. -/
def jsStringLe (a b : String) : Bool := lexLe (strUnits a) (strUnits b)

/-- The same order as a relation, for sortedness statements. -/
def jsLeR (a b : String) : Prop := jsStringLe a b = true

instance (a b : String) : Decidable (jsLeR a b) := by
  unfold jsLeR; infer_instance

/-- Insertion into a sorted list, the helper of `insSort`. -/
def insOrd (le : String → String → Bool) (x : String) : List String → List String
  | [] => [x]
  | y :: ys => if le x y then x :: y :: ys else y :: insOrd le x ys

/-- Sorting. `Array.prototype.sort()` is specified only up to producing a
sorted permutation (comparator consistent); on the duplicate-free key lists
produced by `Object.keys` that determines the result uniquely, so any
correct sort models it.  Insertion sort keeps every proof structural. -/
def insSort (le : String → String → Bool) : List String → List String
  | [] => []
  | x :: xs => insOrd le x (insSort le xs)

/-! ### `JSON.stringify(value, replacerArray, 2)` -/

/-- Hex digit for control-character escapes. -/
def hexDigit (n : Nat) : Char := "0123456789abcdef".toList.getD n '0'

/-- `QuoteJSONString` escaping of one character (ECMA-262). -/
def escChar (c : Char) : List Char :=
  if c == '"' then ['\\', '"']
  else if c == '\\' then ['\\', '\\']
  else if c == '\x08' then ['\\', 'b']
  else if c == '\x0c' then ['\\', 'f']
  else if c == '\n' then ['\\', 'n']
  else if c == '\r' then ['\\', 'r']
  else if c == '\t' then ['\\', 't']
  else if c.toNat < 32 then ['\\', 'u', '0', '0', hexDigit (c.toNat / 16), hexDigit (c.toNat % 16)]
  else [c]

/-- A JSON string literal with its quotes. -/
def quoteJson (s : String) : String :=
  String.mk ('"' :: s.toList.foldr (fun c acc => escChar c ++ acc) ['"'])

/-- Indentation produced by gap `"  "` (space = 2) at depth `d`. -/
def indentOf (d : Nat) : String := String.mk (List.replicate (2 * d) ' ')

/-- Brackets, newlines and separators around the serialized members of an
array or object at depth `d`, exactly as `SerializeJSONObject` /
`SerializeJSONArray` lay them out when a gap is present. -/
def wrapB (d : Nat) (opn cls : String) (items : List String) : String :=
  if items.isEmpty then opn ++ cls
  else
    opn ++ "\n" ++ indentOf (d + 1) ++
      String.intercalate (",\n" ++ indentOf (d + 1)) items ++
      "\n" ++ indentOf d ++ cls

/-- Is this node an object chain (so that the replacer array applies)? -/
def isObjNode : Json → Bool
  | .objNil => true
  | .objCons .. => true
  | _ => false

/-- Keep exactly the properties named in the replacer array, in replacer
order: the `PropertyList` step of `SerializeJSONObject`. -/
def filterReorder (r : List String) (fields : Json) : Json :=
  match r with
  | [] => .objNil
  | k :: ks =>
    match findField k fields with
    | some v => .objCons k v (filterReorder ks fields)
    | none => filterReorder ks fields

/-- Apply the replacer array to a value if it is a (non-array) object. -/
def postObj (r : List String) (j : Json) : Json :=
  if isObjNode j then filterReorder r j else j

/-- Recursively apply the replacer array below every container, leaving the
node itself for `postObj` at its use site. -/
def canonize (r : List String) : Json → Json
  | .arrCons x t => .arrCons (postObj r (canonize r x)) (canonize r t)
  | .objCons k v t => .objCons k (postObj r (canonize r v)) (canonize r t)
  | j => j

/-- One serialized object member, or nothing when the value is skipped. -/
def objItem (k : String) (v : List String) : List String :=
  v.map (fun s => quoteJson k ++ ": " ++ s)

/-- Text of a value (`cm = false`, a one- or zero-element list: zero when
the value is `undefined`) or of the members of a chain (`cm = true`), at
depth `d`, for a tree already put in replacer order by `canonize`/`postObj`. -/
def serM (cm : Bool) (d : Nat) : Json → List String
  | .undef => []
  | .null => ["null"]
  | .bool b => [cond b "true" "false"]
  | .num n => [toString n]
  | .str s => [quoteJson s]
  | .arrNil => if cm then [] else ["[]"]
  | .arrCons x t =>
    if cm then ((serM false d x).headD "null") :: serM true d t
    else [wrapB d "[" "]" (((serM false (d + 1) x).headD "null") :: serM true (d + 1) t)]
  | .objNil => if cm then [] else ["\x7b\x7d"]
  | .objCons k v t =>
    if cm then objItem k (serM false d v) ++ serM true d t
    else [wrapB d "\x7b" "\x7d" (objItem k (serM false (d + 1) v) ++ serM true (d + 1) t)]

/-- `Object.keys(p).sort()`. -/
def sortedTopKeys (p : Json) : List String := insSort jsStringLe (topKeys p)

/-- `JSON.stringify(p, Object.keys(p).sort(), 2)` — the canonical bytes both
`signPayload` and `verifySignature` compute (signage.js line 9 / line 21). -/
def canonicalString (p : Json) : String :=
  let r := sortedTopKeys p
  (serM false 0 (postObj r (canonize r p))).headD ""

/-! ### Base64 (Node `Buffer` semantics) -/

/-- The base64 alphabet. -/
def b64table : List Char :=
  "ABCDEFGHIJKLMNOPQRSTUVWXYZabcdefghijklmnopqrstuvwxyz0123456789+/".toList

/-- Character for a 6-bit value. -/
def b64chr (n : Nat) : Char := b64table.getD n 'A'

/-- Scan of the alphabet for decoding. -/
def b64valAux : List Char → Nat → Char → Option Nat
  | [], _, _ => none
  | t :: ts, i, c => if t == c then some i else b64valAux ts (i + 1) c

/-- 6-bit value of a character; Node also accepts the URL-safe alphabet.
`none` for `=` and for every character Node's lenient decoder ignores. -/
def b64val (c : Char) : Option Nat :=
  if c == '-' then some 62
  else if c == '_' then some 63
  else b64valAux b64table 0 c

/-- Standard padded base64 of a byte list (`sign(..., 'base64')`). -/
def encChars : List Nat → List Char
  | a :: b :: c :: rest =>
    b64chr (a / 4) :: b64chr ((a % 4) * 16 + b / 16) ::
      b64chr ((b % 16) * 4 + c / 64) :: b64chr (c % 64) :: encChars rest
  | [a, b] => [b64chr (a / 4), b64chr ((a % 4) * 16 + b / 16), b64chr ((b % 16) * 4), '=']
  | [a] => [b64chr (a / 4), b64chr ((a % 4) * 16), '=', '=']
  | [] => []

/-- Base64 text of a byte list. -/
def b64encode (bytes : List Nat) : String := String.mk (encChars bytes)

/-- The 6-bit values Node's lenient decoder keeps. -/
def sextets (s : String) : List Nat := s.toList.filterMap b64val

/-- Regroup 6-bit values into bytes, dropping trailing bits that do not
fill a byte, as `Buffer.from(s, 'base64')` does. -/
def sextetsToBytes : List Nat → List Nat
  | a :: b :: c :: d :: rest =>
    (a * 4 + b / 16) :: ((b % 16) * 16 + c / 4) :: ((c % 4) * 64 + d) :: sextetsToBytes rest
  | [a, b, c] => [a * 4 + b / 16, (b % 16) * 16 + c / 4]
  | [a, b] => [a * 4 + b / 16]
  | _ => []

/-- `Buffer.from(s, 'base64')`: lenient decode. -/
def b64decodeNode (s : String) : List Nat := sextetsToBytes (sextets s)

/-! ### The crypto primitive, symbolically

`crypto.createSign('SHA256')` + `sign.sign(privateKey)` with an RSA key is
RSASSA-PKCS1-v1_5, which is deterministic: each (key, message) pair has
exactly one valid signature, and `verify` accepts exactly it.  The key
material generated by the server's bootstrap block is identified by a
key-pair id; the signature bytes are an injective-in-practice symbolic
digest of the id and the signed text (ignoring SHA-256 collisions, as every
symbolic model of hash-then-sign does). -/

/-- Symbolic RSA-SHA256 signature bytes of `data` under key pair `kid`. -/
def sigBytes (kid : Nat) (data : String) : List Nat :=
  ("RSA-SHA256:" ++ toString kid ++ ":" ++ data).toList.map (fun c => c.toNat % 256)

/-! ### Filesystem and the key files -/

/-- Contents of the files the code touches.  The PEM files are symbolic:
`privKey m kid` is the PKCS#1 private PEM and `pubKey m kid` the SPKI
public PEM of an RSA pair with modulus length `m`, pair id `kid`.  A PDF
holds exactly what the /certify handler feeds the renderer: issue time,
query, answer, the sources value and the first 120 base64 characters of
the signature (display truncation, part_000 line 175). -/
inductive FileData where
  | privKey (modulus kid : Nat)
  | pubKey (modulus kid : Nat)
  | pdf (issuedAt queryText answerText : String) (sources : Json) (sigHead : String)
deriving DecidableEq

/-- The filesystem: newest-write-wins association list. -/
abbrev FS := List (String × FileData)

/-- I/O performed against the filesystem. -/
inductive FsEvent where
  | read (path : String)
  | write (path : String)
deriving DecidableEq

/-- `fs.readFileSync` (as a lookup; the caller records the event). -/
def fsRead (fs : FS) (p : String) : Option FileData := fs.lookup p

/-- `fs.writeFileSync`: overwrite or create. -/
def fsWrite (fs : FS) (p : String) (d : FileData) : FS :=
  (p, d) :: fs.filter (fun e => !(e.1 == p))

/-- Number of stored entries at a path. -/
def countPath (fs : FS) (p : String) : Nat :=
  (fs.filter (fun e => e.1 == p)).length

/-- signage.js line 5: the private-key path. -/
def PRIVATE_PEM : String := "certs/private.pem"

/-- signage.js line 6: the public-key path. -/
def PUBLIC_PEM : String := "certs/public.pem"

/-! ### signage.js -/

/-- The `{payload, signature, signed_at}` package `signPayload` returns. -/
structure SignedPackage where
  payload : Json
  signature : String
  signed_at : String
deriving DecidableEq

/-- signage.js lines 8-16.  Serializes the payload canonically, reads the
private PEM from disk (every call — the recorded read event), signs, and
stamps `signed_at` with the current time (a parameter here).  `none` when
`readFileSync` throws (file absent) or `sign.sign` rejects the key
material. -/
def signPayload (fs : FS) (payload : Json) (nowIso : String) :
    Option SignedPackage × List FsEvent :=
  let data := canonicalString payload
  let res :=
    match fsRead fs PRIVATE_PEM with
    | some (.privKey _ kid) =>
      some { payload := payload, signature := b64encode (sigBytes kid data), signed_at := nowIso }
    | _ => none
  (res, [.read PRIVATE_PEM])

/-- signage.js lines 18-25.  Reads the public PEM, recomputes the canonical
bytes of `sp.payload` and checks the base64 signature.  The boolean is the
result of `verify.verify`; `none` when `readFileSync` throws.  There is no
other failure path: a mismatched or undecodable signature yields `false`. -/
def verifySignature (fs : FS) (sp : SignedPackage) : Option Bool × List FsEvent :=
  let res :=
    match fsRead fs PUBLIC_PEM with
    | some (.pubKey _ kid) =>
      some (b64decodeNode sp.signature == sigBytes kid (canonicalString sp.payload))
    | _ => none
  (res, [.read PUBLIC_PEM])

/-! ### part_000: key bootstrap (lines 203-211) -/

/-- The bootstrap block: if either PEM file is missing, generate a fresh
2048-bit pair (`generateKeyPairSync('rsa', { modulusLength: 2048 })`, the
fresh pair id supplied by the environment) and persist both halves;
otherwise do nothing. -/
def bootstrap (fs : FS) (freshKid : Nat) : FS :=
  if (fsRead fs PRIVATE_PEM).isNone || (fsRead fs PUBLIC_PEM).isNone then
    fsWrite (fsWrite fs PRIVATE_PEM (.privKey 2048 freshKid)) PUBLIC_PEM (.pubKey 2048 freshKid)
  else fs

/-! ### part_000: POST /certify (lines 139-183) -/

/-- The request body fields the handler destructures; `none` is an absent
property. -/
structure CertifyReq where
  user_id : Option String := none
  query_text : Option String := none
  lang : Option String := none
  answer_text : Option String := none
  sources : Option Json := none
deriving DecidableEq

/-- The three ways the handler responds: `res.json({signed, pdf})`,
`res.status(400).json(...)`, or the catch-all `res.status(500).json(...)`. -/
inductive CertifyResult where
  | ok (signed : SignedPackage) (pdf : String)
  | badRequest (error : String)
  | serverError (error : String) (detail : String)
deriving DecidableEq

/-- Whether a response is the success shape. -/
def isOkResult : CertifyResult → Bool
  | .ok _ _ => true
  | _ => false

/-- JS falsiness of a possibly-absent string field (`!query_text`). -/
def jsFalsyStr : Option String → Bool
  | none => true
  | some s => s == ""

/-- The payload object literal of part_000 lines 144-151, fields in
insertion order. -/
def certifyPayload (user_id query_text lang answer_text : String) (sources : Json)
    (issued_at : String) : Json :=
  objOf [("user_id", .str user_id), ("query_text", .str query_text), ("lang", .str lang),
    ("answer_text", .str answer_text), ("sources", sources), ("issued_at", .str issued_at)]

/-- The /certify handler.  `nowIso` is `new Date().toISOString()`, `nowMs`
is `Date.now()` for the PDF name, and `renderFail` is the outcome of the
external PDF renderer (pdfkit): `some msg` when document creation throws
`msg`.  The whole body sits in one try/catch, so a sign or render failure
reaches the catch and answers 500 `certify failed`.  Returns the response,
the filesystem after the call and the I/O events performed. -/
def certify (fs : FS) (req : CertifyReq) (nowIso : String) (nowMs : Nat)
    (renderFail : Option String) : CertifyResult × FS × List FsEvent :=
  let user_id := req.user_id.getD "anonymous"
  let lang := req.lang.getD "ml"
  if jsFalsyStr req.query_text || jsFalsyStr req.answer_text then
    (.badRequest "query_text and answer_text required", fs, [])
  else
    let qt := req.query_text.getD ""
    let ans := req.answer_text.getD ""
    let payload := certifyPayload user_id qt lang ans (req.sources.getD .undef) nowIso
    match signPayload fs payload nowIso with
    | (none, ev) => (.serverError "certify failed" "ENOENT", fs, ev)
    | (some signed, ev) =>
      match renderFail with
      | some msg => (.serverError "certify failed" msg, fs, ev)
      | none =>
        let pdfPath := "certs/cert_" ++ toString nowMs ++ ".pdf"
        (.ok signed ("/certs/cert_" ++ toString nowMs ++ ".pdf"),
          fsWrite fs pdfPath
            (.pdf nowIso qt ans (req.sources.getD .undef) (signed.signature.take 120)),
          ev ++ [.write pdfPath])

/-! ### Concrete data used by the claims -/

/-- A filesystem straight after a fresh bootstrap (pair id 7). -/
def fs0 : FS := bootstrap [] 7

/-- One retrieved source as the Python service shapes it. -/
def mkSource (id title excerpt : String) : Json :=
  objOf [("id", .str id), ("title", .str title), ("excerpt", .str excerpt)]

/-- A sources array from a list of (id, title, excerpt) triples. -/
def sourcesJson (l : List (String × String × String)) : Json :=
  arrOf (l.map (fun x => mkSource x.1 x.2.1 x.2.2))

/-- Association-list form of `findField` over `objOf` (proof vehicle). -/
def lookupKV (k : String) : List (String × Json) → Option Json
  | [] => none
  | (k', v) :: t => if k' == k then some v else lookupKV k t

/-- `Object.keys(payload).sort()` for the /certify payload: its six field
names in code-unit order. -/
def RKEYS : List String :=
  ["answer_text", "issued_at", "lang", "query_text", "sources", "user_id"]

/-- The spec's concrete scenario payload (section 8), fields in the order
the scenario writes them. -/
def p10 : Json := objOf [("query_text", .str "When to sow rice?"),
  ("answer_text", .str "Sow after first monsoon rain."), ("lang", .str "ml")]

/-- The concrete scenario payload after the `answer_text` mutation. -/
def p10x : Json := objOf [("query_text", .str "When to sow rice?"),
  ("answer_text", .str "Sow before monsoon."), ("lang", .str "ml")]

/-- A full /certify payload with one retrieved source. -/
def p1a : Json := certifyPayload "anonymous" "When to sow rice?" "ml"
  "Sow after first monsoon rain."
  (sourcesJson [("doc1", "Rice guide", "Sow after the first monsoon rain arrives")])
  "2024-01-01T00:00:00.000Z"

/-- The same payload with the `excerpt` of its single source replaced —
a single-field mutation of `p1a` (its `sources` field changes). -/
def p1b : Json := certifyPayload "anonymous" "When to sow rice?" "ml"
  "Sow after first monsoon rain."
  (sourcesJson [("doc1", "Rice guide", "Use banned pesticide X liberally")])
  "2024-01-01T00:00:00.000Z"

/-- Payload whose nested object reuses a top-level key name (`lang`). -/
def p4a : Json := objOf [("lang", .str "ml"), ("meta", objOf [("lang", .str "a")])]

/-- Same top-level keys and primitive values as `p4a`, different nested value. -/
def p4b : Json := objOf [("lang", .str "ml"), ("meta", objOf [("lang", .str "b")])]

/-- A /certify payload with one source. -/
def p4c : Json := certifyPayload "u" "q" "ml" "a" (sourcesJson [("i", "t", "e")]) "T"

/-- Like `p4c` but with two sources. -/
def p4d : Json :=
  certifyPayload "u" "q" "ml" "a" (sourcesJson [("i", "t", "e"), ("i2", "t2", "e2")]) "T"

/-- A minimal payload for the signature-corruption scenario. -/
def p5 : Json := objOf [("a", .str "xy")]

/-- The signature `signPayload` computes over `p5` on `fs0`. -/
def sig5 : String :=
  match (signPayload fs0 p5 "T").1 with
  | some sp => sp.signature
  | none => ""

/-- `sig5` with its final base64 data character corrupted (`Q` to `R`): the
two characters differ only in bits the final 8-bit group never uses, so the
decoded bytes are unchanged. -/
def sig5mut : String := sig5.dropRight 3 ++ "R=="

/-- A well-formed certify request. -/
def req0 : CertifyReq :=
  { user_id := some "u1"
    query_text := some "When to sow rice?"
    answer_text := some "Sow after first monsoon rain."
    sources := none }

/-! ## Properties of the sort comparator -/

theorem lexLe_total : ∀ u v : List Nat, lexLe u v = true ∨ lexLe v u = true
  | [], _ => Or.inl rfl
  | _ :: _, [] => Or.inr rfl
  | x :: xs, y :: ys => by
    by_cases hxy : x < y
    · left; simp [lexLe, hxy]
    · by_cases hyx : y < x
      · right; simp [lexLe, hyx]
      · have hx : ¬ y < x := hyx
        rcases lexLe_total xs ys with h | h
        · left; simp [lexLe, hxy, hx, h]
        · right; simp [lexLe, hxy, hx, h, show ¬ x < y from hxy]

theorem lexLe_trans : ∀ {u v w : List Nat},
    lexLe u v = true → lexLe v w = true → lexLe u w = true
  | [], _, _, _, _ => rfl
  | _ :: _, [], _, h1, _ => by simp [lexLe] at h1
  | _ :: _, _ :: _, [], _, h2 => by simp [lexLe] at h2
  | x :: xs, y :: ys, z :: zs, h1, h2 => by
    simp only [lexLe] at h1 h2 ⊢
    split at h1
    · split at h2
      · simp [show x < z by omega]
      · split at h2
        · exact absurd h2 (by simp)
        · simp [show x < z by omega]
    · split at h1
      · exact absurd h1 (by simp)
      · split at h2
        · simp [show x < z by omega]
        · split at h2
          · exact absurd h2 (by simp)
          · have hxz : ¬ x < z := by omega
            have hzx : ¬ z < x := by omega
            simp [hxz, hzx]
            exact lexLe_trans h1 h2

theorem lexLe_antisymm : ∀ {u v : List Nat},
    lexLe u v = true → lexLe v u = true → u = v
  | [], [], _, _ => rfl
  | [], _ :: _, _, h2 => by simp [lexLe] at h2
  | _ :: _, [], h1, _ => by simp [lexLe] at h1
  | x :: xs, y :: ys, h1, h2 => by
    simp only [lexLe] at h1 h2
    by_cases hxy : x < y
    · have hyx : ¬ y < x := by omega
      rw [if_neg hyx, if_pos hxy] at h2
      exact absurd h2 (by simp)
    · by_cases hyx : y < x
      · rw [if_neg hxy, if_pos hyx] at h1
        exact absurd h1 (by simp)
      · rw [if_neg hxy, if_neg hyx] at h1
        rw [if_neg hyx, if_neg hxy] at h2
        have hxe : x = y := by omega
        rw [hxe, lexLe_antisymm h1 h2]

/-- Valid Unicode scalar range of a character (no surrogates). -/
theorem charValidRange (c : Char) : c.toNat < 55296 ∨ (57343 < c.toNat ∧ c.toNat < 1114112) := by
  rcases c.valid with h | h
  · exact Or.inl h
  · exact Or.inr h

theorem charToNat_inj {c d : Char} (h : c.toNat = d.toNat) : c = d :=
  Char.eq_of_val_eq (UInt32.ext h)

/-- UTF-16 code-unit sequences decode uniquely: surrogate ranges are
disjoint from scalar values, so `strUnits` is injective on char lists. -/
theorem utf16Chain_inj : ∀ l1 l2 : List Char,
    l1.foldr (fun c acc => utf16Units c ++ acc) [] = l2.foldr (fun c acc => utf16Units c ++ acc) [] →
    l1 = l2
  | [], [], _ => rfl
  | [], c :: _, h => by
    exfalso
    simp only [List.foldr, utf16Units] at h
    split at h <;> simp at h
  | c :: _, [], h => by
    exfalso
    simp only [List.foldr, utf16Units] at h
    split at h <;> simp at h
  | c :: t1, c' :: t2, h => by
    simp only [List.foldr, utf16Units] at h
    by_cases hsz : c.toNat < 65536
    · by_cases hsz' : c'.toNat < 65536
      · rw [if_pos hsz, if_pos hsz'] at h
        simp only [List.cons_append, List.nil_append, List.cons.injEq] at h
        rw [charToNat_inj h.1, utf16Chain_inj t1 t2 h.2]
      · rw [if_pos hsz, if_neg hsz'] at h
        simp only [List.cons_append, List.nil_append, List.cons.injEq] at h
        exact absurd h.1
          (by rcases charValidRange c with hc | hc <;> rcases charValidRange c' with hc' | hc' <;> omega)
    · by_cases hsz' : c'.toNat < 65536
      · rw [if_neg hsz, if_pos hsz'] at h
        simp only [List.cons_append, List.nil_append, List.cons.injEq] at h
        exact absurd h.1
          (by rcases charValidRange c with hc | hc <;> rcases charValidRange c' with hc' | hc' <;> omega)
      · rw [if_neg hsz, if_neg hsz'] at h
        simp only [List.cons_append, List.nil_append, List.cons.injEq] at h
        have hcc : c.toNat = c'.toNat := by
          have h1 := h.1
          have h2 := h.2.1
          omega
        rw [charToNat_inj hcc, utf16Chain_inj t1 t2 h.2.2]

theorem strUnits_inj {a b : String} (h : strUnits a = strUnits b) : a = b :=
  String.ext (utf16Chain_inj _ _ h)

theorem jsLe_total (a b : String) : jsStringLe a b = true ∨ jsStringLe b a = true :=
  lexLe_total _ _

theorem jsLe_trans {a b c : String} (h1 : jsStringLe a b = true) (h2 : jsStringLe b c = true) :
    jsStringLe a c = true := lexLe_trans h1 h2

theorem jsLe_antisymm {a b : String} (h1 : jsStringLe a b = true) (h2 : jsStringLe b a = true) :
    a = b := strUnits_inj (lexLe_antisymm h1 h2)

instance : IsAntisymm String jsLeR := ⟨fun _ _ h1 h2 => jsLe_antisymm h1 h2⟩

/-! ## Sorting lemmas -/

theorem insOrd_perm (le : String → String → Bool) (x : String) :
    ∀ l : List String, (insOrd le x l).Perm (x :: l)
  | [] => List.Perm.refl _
  | y :: ys => by
    unfold insOrd
    split
    · exact List.Perm.refl _
    · exact ((insOrd_perm le x ys).cons y).trans (List.Perm.swap x y ys)

theorem insSort_perm (le : String → String → Bool) :
    ∀ l : List String, (insSort le l).Perm l
  | [] => List.Perm.refl _
  | x :: xs => (insOrd_perm le x (insSort le xs)).trans ((insSort_perm le xs).cons x)

theorem insOrd_sorted {le : String → String → Bool}
    (htot : ∀ a b, le a b = true ∨ le b a = true)
    (htr : ∀ {a b c}, le a b = true → le b c = true → le a c = true)
    (x : String) :
    ∀ {l : List String}, List.Sorted (fun a b => le a b = true) l →
      List.Sorted (fun a b => le a b = true) (insOrd le x l)
  | [], _ => by simp [insOrd]
  | y :: ys, h => by
    rw [List.sorted_cons] at h
    unfold insOrd
    split
    · rename_i hxy
      rw [List.sorted_cons]
      refine ⟨?_, by rw [List.sorted_cons]; exact h⟩
      intro b hb
      rcases List.mem_cons.mp hb with rfl | hb
      · exact hxy
      · exact htr hxy (h.1 b hb)
    · rename_i hxy
      have hyx : le y x = true := by
        rcases htot x y with ht | ht
        · exact absurd ht hxy
        · exact ht
      rw [List.sorted_cons]
      constructor
      · intro b hb
        have hb2 : b = x ∨ b ∈ ys := List.mem_cons.mp ((insOrd_perm le x ys).mem_iff.mp hb)
        rcases hb2 with rfl | hb'
        · exact hyx
        · exact h.1 b hb'
      · exact insOrd_sorted htot htr x h.2

theorem insSort_sorted {le : String → String → Bool}
    (htot : ∀ a b, le a b = true ∨ le b a = true)
    (htr : ∀ {a b c}, le a b = true → le b c = true → le a c = true) :
    ∀ l : List String, List.Sorted (fun a b => le a b = true) (insSort le l)
  | [] => by simp [insSort]
  | x :: xs => insOrd_sorted htot htr x (insSort_sorted htot htr xs)

/-- The sorted key list is determined by the key multiset alone. -/
theorem insSort_eq_of_perm {l1 l2 : List String} (h : l1.Perm l2) :
    insSort jsStringLe l1 = insSort jsStringLe l2 := by
  have hp : (insSort jsStringLe l1).Perm (insSort jsStringLe l2) :=
    ((insSort_perm _ l1).trans h).trans (insSort_perm _ l2).symm
  exact List.eq_of_perm_of_sorted (r := jsLeR) hp
    (insSort_sorted jsLe_total (fun h1 h2 => jsLe_trans h1 h2) l1)
    (insSort_sorted jsLe_total (fun h1 h2 => jsLe_trans h1 h2) l2)

/-! ## Serialization is insertion-order independent -/

theorem findField_objOf (k : String) :
    ∀ l : List (String × Json), findField k (objOf l) = lookupKV k l
  | [] => rfl
  | (k', v) :: t => by
    simp only [objOf, findField, lookupKV]
    split <;> simp [findField_objOf k t]

theorem topKeys_objOf : ∀ l : List (String × Json), topKeys (objOf l) = l.map Prod.fst
  | [] => rfl
  | (k, v) :: t => by simp [objOf, topKeys, topKeys_objOf t]

/-- Property lookup in a duplicate-free association list is invariant under
permutation (insertion order). -/
theorem lookupKV_perm {l1 l2 : List (String × Json)} (h : l1.Perm l2)
    (hnd : (l1.map Prod.fst).Nodup) (k : String) : lookupKV k l1 = lookupKV k l2 := by
  induction h with
  | nil => rfl
  | cons x _ ih =>
    obtain ⟨kx, vx⟩ := x
    simp only [lookupKV]
    split
    · rfl
    · exact ih (by simpa using hnd.of_cons)
  | swap x y l =>
    obtain ⟨kx, vx⟩ := x
    obtain ⟨ky, vy⟩ := y
    simp only [lookupKV]
    by_cases hx : kx == k <;> by_cases hy : ky == k
    · exfalso
      simp only [List.map_cons, List.nodup_cons, List.mem_cons] at hnd
      exact hnd.1 (Or.inl (by
        have h1 : kx = k := by simpa using hx
        have h2 : ky = k := by simpa using hy
        rw [h1, h2]))
    · simp [hx, hy]
    · simp [hx, hy]
    · simp [hx, hy]
  | trans h1 _ ih1 ih2 =>
    rw [ih1 hnd, ih2 (((h1.map Prod.fst).nodup_iff).mp hnd)]

theorem canonize_objOf (r : List String) :
    ∀ l : List (String × Json),
      canonize r (objOf l) = objOf (l.map (fun kv => (kv.1, postObj r (canonize r kv.2))))
  | [] => rfl
  | (k, v) :: t => by simp [objOf, canonize, canonize_objOf r t]

theorem isObjNode_objOf : ∀ l : List (String × Json), isObjNode (objOf l) = true
  | [] => rfl
  | _ :: _ => rfl

theorem filterReorder_congr {f1 f2 : Json} (h : ∀ k, findField k f1 = findField k f2) :
    ∀ r : List String, filterReorder r f1 = filterReorder r f2
  | [] => rfl
  | k :: ks => by
    simp only [filterReorder, h k]
    split <;> simp [filterReorder_congr h ks]

/-! ## Base64 decode inverts encode -/

theorem b64val_b64chr {n : Nat} (h : n < 64) : b64val (b64chr n) = some n := by
  interval_cases n <;> decide

theorem b64val_eq : b64val '=' = none := by decide

theorem b64_roundtrip_aux : ∀ l : List Nat, (∀ x ∈ l, x < 256) →
    sextetsToBytes ((encChars l).filterMap b64val) = l
  | [], _ => rfl
  | [a], h => by
    have ha : a < 256 := h a (by simp)
    simp only [encChars, List.filterMap_cons,
      b64val_b64chr (show a / 4 < 64 by omega),
      b64val_b64chr (show (a % 4) * 16 < 64 by omega), b64val_eq, List.filterMap_nil]
    simp only [sextetsToBytes, List.cons.injEq, and_true]
    omega
  | [a, b], h => by
    have ha : a < 256 := h a (by simp)
    have hb : b < 256 := h b (by simp)
    simp only [encChars, List.filterMap_cons,
      b64val_b64chr (show a / 4 < 64 by omega),
      b64val_b64chr (show (a % 4) * 16 + b / 16 < 64 by omega),
      b64val_b64chr (show (b % 16) * 4 < 64 by omega), b64val_eq, List.filterMap_nil]
    simp only [sextetsToBytes, List.cons.injEq, and_true]
    omega
  | a :: b :: c :: rest, h => by
    have ha : a < 256 := h a (by simp)
    have hb : b < 256 := h b (by simp)
    have hc : c < 256 := h c (by simp)
    have hrest : ∀ x ∈ rest, x < 256 := fun x hx => h x (by simp [hx])
    simp only [encChars, List.filterMap_cons,
      b64val_b64chr (show a / 4 < 64 by omega),
      b64val_b64chr (show (a % 4) * 16 + b / 16 < 64 by omega),
      b64val_b64chr (show (b % 16) * 4 + c / 64 < 64 by omega),
      b64val_b64chr (show c % 64 < 64 by omega)]
    simp only [sextetsToBytes, b64_roundtrip_aux rest hrest, List.cons.injEq, and_true]
    refine ⟨by omega, by omega, by omega⟩

/-- `Buffer.from(b64encode bytes, 'base64')` recovers the bytes. -/
theorem b64_roundtrip (l : List Nat) (h : ∀ x ∈ l, x < 256) :
    b64decodeNode (b64encode l) = l := by
  have ht : (String.mk (encChars l)).toList = encChars l := rfl
  rw [b64decodeNode, sextets, b64encode, ht, b64_roundtrip_aux l h]

theorem sigBytes_lt (kid : Nat) (data : String) : ∀ x ∈ sigBytes kid data, x < 256 := by
  intro x hx
  simp only [sigBytes, List.mem_map] at hx
  obtain ⟨c, _, rfl⟩ := hx
  omega

/-- Verification accepts exactly the signatures whose decoded bytes are the
unique valid signature bytes of the canonical text. -/
theorem verifySignature_eq {fs : FS} {m kid : Nat}
    (hpub : fsRead fs PUBLIC_PEM = some (.pubKey m kid)) (sp : SignedPackage) :
    (verifySignature fs sp).1 =
      some (b64decodeNode sp.signature == sigBytes kid (canonicalString sp.payload)) := by
  simp [verifySignature, hpub]

/-- Canonical serialization depends only on the field set, not on the
insertion order of a duplicate-free payload. -/
theorem canonicalString_insertion_order {l1 l2 : List (String × Json)}
    (hnd : (l1.map Prod.fst).Nodup) (hp : l1.Perm l2) :
    canonicalString (objOf l1) = canonicalString (objOf l2) := by
  have hr : sortedTopKeys (objOf l2) = sortedTopKeys (objOf l1) := by
    simp only [sortedTopKeys, topKeys_objOf]
    exact (insSort_eq_of_perm (hp.map Prod.fst)).symm
  set r := sortedTopKeys (objOf l1) with hrdef
  have hF : ∀ l : List (String × Json),
      postObj r (canonize r (objOf l)) =
        filterReorder r (objOf (l.map (fun kv => (kv.1, postObj r (canonize r kv.2))))) := by
    intro l
    rw [canonize_objOf, postObj, isObjNode_objOf]
    simp
  have hnd' : ((l1.map (fun kv => (kv.1, postObj r (canonize r kv.2)))).map Prod.fst).Nodup := by
    rw [List.map_map]
    exact hnd
  have heq : postObj r (canonize r (objOf l1)) = postObj r (canonize r (objOf l2)) := by
    rw [hF l1, hF l2]
    apply filterReorder_congr
    intro k
    rw [findField_objOf, findField_objOf]
    exact lookupKV_perm (hp.map _) hnd' k
  show (serM false 0 (postObj (sortedTopKeys (objOf l1)) (canonize (sortedTopKeys (objOf l1))
    (objOf l1)))).headD "" = (serM false 0 (postObj (sortedTopKeys (objOf l2))
      (canonize (sortedTopKeys (objOf l2)) (objOf l2)))).headD ""
  rw [hr, heq]

/-! ## What the replacer array does to the sources array -/

/-- No name of a retrieved-source object (`id`, `title`, `excerpt`) occurs
among the payload's top-level keys, so the replacer array empties every
source object: the array canonizes to a row of empty objects, remembering
only how many sources there were. -/
theorem canonSources : ∀ l : List (String × String × String),
    canonize RKEYS (sourcesJson l) = arrOf (List.replicate l.length Json.objNil)
  | [] => rfl
  | x :: t => by
    show Json.arrCons Json.objNil (canonize RKEYS (sourcesJson t)) =
      Json.arrCons Json.objNil (arrOf (List.replicate t.length Json.objNil))
    rw [canonSources t]

/-- The canonical text of a /certify payload built over source triples:
the sources slot retains only the source count. -/
theorem canonical_certify (u q lg a t : String) (l : List (String × String × String)) :
    canonicalString (certifyPayload u q lg a (sourcesJson l) t) =
      (serM false 0 (objOf [("answer_text", Json.str a), ("issued_at", Json.str t),
        ("lang", Json.str lg), ("query_text", Json.str q),
        ("sources", arrOf (List.replicate l.length Json.objNil)),
        ("user_id", Json.str u)])).headD "" := by
  have hs : postObj RKEYS (canonize RKEYS (sourcesJson l)) =
      arrOf (List.replicate l.length Json.objNil) := by
    rw [canonSources]
    cases l <;> rfl
  show (serM false 0 (objOf [("answer_text", Json.str a), ("issued_at", Json.str t),
    ("lang", Json.str lg), ("query_text", Json.str q),
    ("sources", postObj RKEYS (canonize RKEYS (sourcesJson l))),
    ("user_id", Json.str u)])).headD "" = _
  rw [hs]

/-! ## Filesystem lemmas for the bootstrap claim -/

theorem fsRead_write_self (fs : FS) (p : String) (d : FileData) :
    fsRead (fsWrite fs p d) p = some d := by
  simp [fsRead, fsWrite, List.lookup]

theorem lookup_filter_other (q p : String) (h : q ≠ p) :
    ∀ fs : FS, (fs.filter (fun e => !(e.1 == p))).lookup q = fs.lookup q
  | [] => rfl
  | (p', d) :: t => by
    by_cases hp : p' = p
    · subst hp
      have hq : (q == p') = false := beq_eq_false_iff_ne.mpr h
      simp [List.filter_cons, List.lookup, hq, lookup_filter_other q p' h t]
    · have hp' : (p' == p) = false := beq_eq_false_iff_ne.mpr hp
      by_cases hq : q = p'
      · subst hq
        simp [List.filter_cons, List.lookup, hp']
      · have hq' : (q == p') = false := beq_eq_false_iff_ne.mpr hq
        simp [List.filter_cons, List.lookup, hp', hq', lookup_filter_other q p h t]

theorem fsRead_write_other (fs : FS) (p q : String) (d : FileData) (h : q ≠ p) :
    fsRead (fsWrite fs p d) q = fsRead fs q := by
  have hq : (q == p) = false := beq_eq_false_iff_ne.mpr h
  simp [fsRead, fsWrite, List.lookup, hq, lookup_filter_other q p h fs]

/-! ## The claims -/

set_option maxRecDepth 40000

/-- C1 (code bug): the spec promises that any single-field mutation of a
signed payload makes verification fail, but the replacer array passed to
`JSON.stringify` filters nested objects by the payload's top-level key
names, so the content of the `sources` entries never reaches the signed
bytes.  `p1a` and `p1b` differ in exactly one field (`sources`: the
excerpt of the single source was replaced), yet they canonicalize to the
same text and the signature over `p1a` verifies against `p1b`. -/
theorem C1_nested_source_mutation_verifies :
    p1a ≠ p1b ∧ canonicalString p1a = canonicalString p1b ∧
      ((signPayload fs0 p1a "t").1.map (fun sp =>
        (verifySignature fs0 ⟨p1b, sp.signature, sp.signed_at⟩).1)) = some (some true) :=
  ⟨by decide, rfl, rfl⟩

/-- C2: round-trip — a package produced by `signPayload` verifies under the
matching key pair: `verify(sign(P))` is `true` for every payload. -/
theorem C2_sign_verify_roundtrip (fs : FS) (m kid : Nat) (payload : Json) (nowIso : String)
    (sp : SignedPackage)
    (hpriv : fsRead fs PRIVATE_PEM = some (.privKey m kid))
    (hpub : fsRead fs PUBLIC_PEM = some (.pubKey m kid))
    (hsig : (signPayload fs payload nowIso).1 = some sp) :
    (verifySignature fs sp).1 = some true := by
  simp only [signPayload, hpriv, Option.some.injEq] at hsig
  subst hsig
  rw [verifySignature_eq hpub]
  simp [b64_roundtrip _ (sigBytes_lt kid _)]

/-- C2 witness: the round-trip at the bootstrapped filesystem and the
spec's concrete scenario payload. -/
theorem C2_witness :
    (verifySignature fs0 ⟨p10, b64encode (sigBytes 7 (canonicalString p10)), "T"⟩).1 =
      some true :=
  C2_sign_verify_roundtrip fs0 2048 7 p10 "T" _ rfl rfl rfl

/-- C3: canonical serialization is deterministic — two payloads with the
same (duplicate-free) fields and values produce byte-identical canonical
text no matter the insertion order, and the encoded key list is sorted in
the comparator order of `Array.prototype.sort()`. -/
theorem C3_canonical_determinism (l1 l2 : List (String × Json))
    (hnd : (l1.map Prod.fst).Nodup) (hp : l1.Perm l2) :
    canonicalString (objOf l1) = canonicalString (objOf l2) ∧
      List.Sorted jsLeR (sortedTopKeys (objOf l1)) :=
  ⟨canonicalString_insertion_order hnd hp,
   insSort_sorted jsLe_total (fun h1 h2 => jsLe_trans h1 h2) _⟩

/-- C3 witness: a two-field payload built in both insertion orders. -/
theorem C3_witness :
    canonicalString (objOf [("b", Json.str "2"), ("a", Json.str "1")]) =
      canonicalString (objOf [("a", Json.str "1"), ("b", Json.str "2")]) ∧
      List.Sorted jsLeR (sortedTopKeys (objOf [("b", Json.str "2"), ("a", Json.str "1")])) :=
  C3_canonical_determinism _ _ (by decide) (by decide)

/-- C4 counterexample: the claim is too strong in two ways.  `p4a`/`p4b`
have the same top-level keys and equal top-level primitive values and
differ only inside a nested object — but in a field named `lang`, which is
a top-level key, so it is *not* omitted: the canonical bytes differ and
cross-verification rejects.  And `p4c`/`p4d` differ only inside `sources`,
yet adding a source entry changes the canonical bytes (the row of `{}`
grows), so "differ arbitrarily" also fails across entry counts. -/
theorem C4_counterexample :
    topKeys p4a = topKeys p4b ∧ findField "lang" p4a = findField "lang" p4b ∧
      canonicalString p4a ≠ canonicalString p4b ∧
      ((signPayload fs0 p4a "t").1.map (fun sp =>
        (verifySignature fs0 ⟨p4b, sp.signature, "t"⟩).1)) = some (some false) ∧
      canonicalString p4c ≠ canonicalString p4d :=
  ⟨rfl, rfl, by decide, rfl, by decide⟩

/-- C4 (amended): for /certify payloads, every field of a source entry
whose name is not a top-level payload key (`id`, `title`, `excerpt`) is
omitted from the signed bytes: two payloads with the same top-level values
and the same number of sources have identical canonical bytes however
their source contents differ, and each verifies against the other's
signature. -/
theorem C4_nested_omission_amended (u q lg a t0 nowIso : String)
    (l1 l2 : List (String × String × String)) (fs : FS) (m kid : Nat)
    (hlen : l1.length = l2.length)
    (hpriv : fsRead fs PRIVATE_PEM = some (.privKey m kid))
    (hpub : fsRead fs PUBLIC_PEM = some (.pubKey m kid)) :
    canonicalString (certifyPayload u q lg a (sourcesJson l1) t0) =
      canonicalString (certifyPayload u q lg a (sourcesJson l2) t0) ∧
      ((signPayload fs (certifyPayload u q lg a (sourcesJson l1) t0) nowIso).1.map (fun sp =>
        (verifySignature fs ⟨certifyPayload u q lg a (sourcesJson l2) t0,
          sp.signature, sp.signed_at⟩).1)) = some (some true) := by
  have hc : canonicalString (certifyPayload u q lg a (sourcesJson l1) t0) =
      canonicalString (certifyPayload u q lg a (sourcesJson l2) t0) := by
    rw [canonical_certify, canonical_certify, hlen]
  refine ⟨hc, ?_⟩
  simp only [signPayload, hpriv, Option.map_some']
  rw [verifySignature_eq hpub]
  simp [← hc, b64_roundtrip _ (sigBytes_lt kid _)]

/-- C4 witness: two one-source payloads with entirely different source
contents sign to the same bytes and cross-verify. -/
theorem C4_witness :
    canonicalString (certifyPayload "u" "q" "ml" "a"
        (sourcesJson [("doc1", "T1", "E1")]) "T") =
      canonicalString (certifyPayload "u" "q" "ml" "a"
        (sourcesJson [("doc9", "T9", "E9")]) "T") ∧
      ((signPayload fs0 (certifyPayload "u" "q" "ml" "a"
          (sourcesJson [("doc1", "T1", "E1")]) "T") "T").1.map (fun sp =>
        (verifySignature fs0 ⟨certifyPayload "u" "q" "ml" "a"
            (sourcesJson [("doc9", "T9", "E9")]) "T",
          sp.signature, sp.signed_at⟩).1)) = some (some true) :=
  C4_nested_omission_amended "u" "q" "ml" "a" "T" "T"
    [("doc1", "T1", "E1")] [("doc9", "T9", "E9")] fs0 2048 7 rfl rfl rfl

/-- C5 counterexample: both halves of the claim fail on the code.
Corrupting the last data character of a valid signature's base64 text
(`sig5mut`, one byte changed) leaves the decoded bytes unchanged — the
final group's unused bits are dropped — so verification still returns
`true`.  And an undecodable signature (`%%%`, no base64 alphabet
characters at all) does not raise any `MalformedInputError`: Node decodes
leniently and `verify.verify` just returns `false`. -/
theorem C5_counterexample :
    sig5mut ≠ sig5 ∧
      (verifySignature fs0 ⟨p5, sig5mut, "T"⟩).1 = some true ∧
      (verifySignature fs0 ⟨p5, "%%%", "T"⟩).1 = some false :=
  ⟨by decide, rfl, rfl⟩

/-- C5 (amended): verification never raises for any signature text — it
always produces a boolean — and it returns `false` exactly when the
leniently decoded bytes differ from the unique valid signature bytes of
the payload's canonical text; corruptions confined to ignored characters
or unused trailing bits leave it `true`. -/
theorem C5_verify_mismatch_amended (fs : FS) (m kid : Nat) (p : Json) (t sig : String)
    (hpub : fsRead fs PUBLIC_PEM = some (.pubKey m kid)) :
    (∃ b, (verifySignature fs ⟨p, sig, t⟩).1 = some b) ∧
      (b64decodeNode sig ≠ sigBytes kid (canonicalString p) →
        (verifySignature fs ⟨p, sig, t⟩).1 = some false) := by
  constructor
  · exact ⟨_, verifySignature_eq hpub _⟩
  · intro hne
    rw [verifySignature_eq hpub]
    simp only [Option.some.injEq]
    exact beq_eq_false_iff_ne.mpr hne

/-- C5 witness: the undecodable `%%%` yields `false`, not an error. -/
theorem C5_witness :
    (verifySignature fs0 ⟨p5, "%%%", "T"⟩).1 = some false :=
  (C5_verify_mismatch_amended fs0 2048 7 p5 "T" "%%%" rfl).2 (by decide)

/-- C6 counterexample: on a valid, successfully signed request, a failure
of the PDF-creation step is caught by the handler's single try/catch and
answered as a 500 `certify failed` error — the signed certificate is not
returned at all, contrary to the claim. -/
theorem C6_counterexample :
    isOkResult (certify fs0 req0 "T" 5 (some "boom")).1 = false ∧
      (certify fs0 req0 "T" 5 (some "boom")).1 = .serverError "certify failed" "boom" :=
  ⟨rfl, rfl⟩

/-- C6 (amended): rendering failure is fatal to the request — for every
valid request whose signing step succeeds, a throwing renderer makes the
handler return the 500 `certify failed` response, leaving the filesystem
unchanged; the only I/O performed is the signer's key read. -/
theorem C6_render_failure_amended (fs : FS) (req : CertifyReq) (nowIso msg q a : String)
    (nowMs m kid : Nat)
    (hq : req.query_text = some q) (hq' : q ≠ "")
    (ha : req.answer_text = some a) (ha' : a ≠ "")
    (hpriv : fsRead fs PRIVATE_PEM = some (.privKey m kid)) :
    certify fs req nowIso nowMs (some msg) =
      (.serverError "certify failed" msg, fs, [.read PRIVATE_PEM]) := by
  have h1 : jsFalsyStr req.query_text = false := by
    rw [hq]; simpa [jsFalsyStr] using hq'
  have h2 : jsFalsyStr req.answer_text = false := by
    rw [ha]; simpa [jsFalsyStr] using ha'
  simp [certify, h1, h2, signPayload, hpriv]

/-- C6 witness: the concrete failing render on a well-formed request. -/
theorem C6_witness :
    certify fs0 req0 "T" 5 (some "boom") =
      (.serverError "certify failed" "boom", fs0, [.read PRIVATE_PEM]) :=
  C6_render_failure_amended fs0 req0 "T" "boom" "When to sow rice?"
    "Sow after first monsoon rain." 5 2048 7 rfl (by decide) rfl (by decide) rfl

/-- C7 counterexample: `signPayload` is not free of I/O — every call
reads the private-key PEM from disk (signage.js line 13), so its event
trace is never empty. -/
theorem C7_counterexample :
    (signPayload fs0 p10 "T").2 ≠ [] ∧
      (signPayload fs0 p10 "T").2 = [FsEvent.read PRIVATE_PEM] :=
  ⟨by decide, rfl⟩

/-- C7 (amended): `signPayload` performs exactly one I/O operation per
call — a read of the private-key PEM file, re-read on every invocation
rather than loaded once at startup — and no writes, so it never mutates
the filesystem or any shared state. -/
theorem C7_sign_reads_key_amended (fs : FS) (payload : Json) (nowIso : String) :
    (signPayload fs payload nowIso).2 = [FsEvent.read PRIVATE_PEM] := rfl

/-- C8: key bootstrap generates and persists a fresh 2048-bit pair exactly
when either PEM file is absent, leaves an existing pair untouched, is
idempotent (the second of two consecutive runs is a no-op), and starting
from an empty store two runs leave exactly one persisted copy of each
half. -/
theorem C8_bootstrap (fs : FS) (k1 k2 : Nat) :
    ((fsRead fs PRIVATE_PEM = none ∨ fsRead fs PUBLIC_PEM = none) →
      fsRead (bootstrap fs k1) PRIVATE_PEM = some (.privKey 2048 k1) ∧
        fsRead (bootstrap fs k1) PUBLIC_PEM = some (.pubKey 2048 k1)) ∧
      (fsRead fs PRIVATE_PEM ≠ none → fsRead fs PUBLIC_PEM ≠ none → bootstrap fs k1 = fs) ∧
      bootstrap (bootstrap fs k1) k2 = bootstrap fs k1 ∧
      countPath (bootstrap (bootstrap [] k1) k2) PRIVATE_PEM = 1 ∧
      countPath (bootstrap (bootstrap [] k1) k2) PUBLIC_PEM = 1 := by
  have hne : PRIVATE_PEM ≠ PUBLIC_PEM := by decide
  have hgen : ∀ fs' : FS, ((fsRead fs' PRIVATE_PEM).isNone || (fsRead fs' PUBLIC_PEM).isNone) = true →
      fsRead (bootstrap fs' k1) PRIVATE_PEM = some (.privKey 2048 k1) ∧
        fsRead (bootstrap fs' k1) PUBLIC_PEM = some (.pubKey 2048 k1) := by
    intro fs' hcond
    rw [bootstrap, if_pos hcond]
    exact ⟨by rw [fsRead_write_other _ _ _ _ hne, fsRead_write_self],
      fsRead_write_self _ _ _⟩
  have hnoop : ∀ fs' : FS, fsRead fs' PRIVATE_PEM ≠ none → fsRead fs' PUBLIC_PEM ≠ none →
      bootstrap fs' k2 = fs' := by
    intro fs' h1 h2
    rw [bootstrap, if_neg]
    simp only [Bool.or_eq_true, Option.isNone_iff_eq_none]
    push_neg
    exact ⟨h1, h2⟩
  refine ⟨?_, ?_, ?_, rfl, rfl⟩
  · intro h
    apply hgen
    rcases h with h | h <;> rw [h] <;> simp
  · intro h1 h2
    rw [bootstrap, if_neg]
    simp only [Bool.or_eq_true, Option.isNone_iff_eq_none]
    push_neg
    exact ⟨h1, h2⟩
  · by_cases hcond : ((fsRead fs PRIVATE_PEM).isNone || (fsRead fs PUBLIC_PEM).isNone) = true
    · have hg := hgen fs hcond
      exact hnoop (bootstrap fs k1) (by rw [hg.1]; simp) (by rw [hg.2]; simp)
    · have hfs : bootstrap fs k1 = fs := by rw [bootstrap, if_neg hcond]
      rw [hfs, bootstrap, if_neg hcond]

/-- C8 witness: a fresh store gets both halves on the first run, the
second run is a no-op, and exactly one copy of each half persists. -/
theorem C8_witness :
    (fsRead (bootstrap [] 1) PRIVATE_PEM = some (FileData.privKey 2048 1) ∧
      fsRead (bootstrap [] 1) PUBLIC_PEM = some (FileData.pubKey 2048 1)) ∧
      bootstrap (bootstrap [] 1) 2 = bootstrap [] 1 ∧
      countPath (bootstrap (bootstrap [] 1) 2) PRIVATE_PEM = 1 :=
  ⟨(C8_bootstrap [] 1 2).1 (Or.inl rfl),
   (C8_bootstrap (bootstrap [] 1) 2 3).2.1 (by decide) (by decide),
   (C8_bootstrap [] 1 2).2.2.2.1⟩

/-- C9: a request missing the query text or the answer text is answered
with the 400 validation error; no certificate is produced, nothing is
signed (no I/O happens) and the filesystem is untouched. -/
theorem C9_validation (fs : FS) (req : CertifyReq) (nowIso : String) (nowMs : Nat)
    (renderFail : Option String)
    (h : req.query_text = none ∨ req.answer_text = none) :
    certify fs req nowIso nowMs renderFail =
      (.badRequest "query_text and answer_text required", fs, []) := by
  have hcond : (jsFalsyStr req.query_text || jsFalsyStr req.answer_text) = true := by
    rcases h with h | h <;> rw [h] <;> simp [jsFalsyStr]
  simp [certify, hcond]

/-- C9 witness: a request without `query_text`. -/
theorem C9_witness :
    certify fs0 { req0 with query_text := none } "T" 5 none =
      (.badRequest "query_text and answer_text required", fs0, []) :=
  C9_validation fs0 _ "T" 5 none (Or.inl rfl)

/-- C10: the spec's concrete scenario — the three-field payload signed,
`answer_text` then changed: verification returns `false` against the
original signature and `true` against a signature freshly computed over
the changed payload. -/
theorem C10_concrete_scenario :
    ((signPayload fs0 p10 "2024-01-01T00:00:00.000Z").1.map (fun sp =>
        (verifySignature fs0 ⟨p10x, sp.signature, sp.signed_at⟩).1)) = some (some false) ∧
      ((signPayload fs0 p10x "2024-01-01T00:00:00.000Z").1.map (fun sp =>
        (verifySignature fs0 sp).1)) = some (some true) :=
  ⟨rfl, rfl⟩

end AgriCert
